import Mathlib

/-!
Formal model of the in-memory TTL cache with hit/miss statistics of the
wbjee-college-predictor server (src/unnamed/part_000, the express server
section).  The cache is a JS `Map` from string keys to `{data, timestamp}`
records; timestamps are `Date.now()` millisecond values, modelled as `Int`.
The statistics counters live in the mutable `cacheStats` object and are
updated only by the `/api/data` handler and the `/api/cache/clear` handler.
-/

set_option autoImplicit false

namespace WbjeeCache

/-- models the cache record `{ data: ..., timestamp: ... }` stored by
`setCachedData` (part_000 lines 39-44): an opaque string payload and the
`Date.now()` timestamp at which it was stored. -/
structure CacheItem where
  data : String
  timestamp : Int
deriving Repr, DecidableEq

/-- models the JS `Map` `cache` (part_000 line 28) as an association list
with unique keys; `Map.size` is the list length. -/
abbrev Cache := List (String × CacheItem)

/-- models `CACHE_TTL = 30 * 60 * 1000` (part_000 line 29): 30 minutes in
milliseconds. -/
def CACHE_TTL : Int := 30 * 60 * 1000

/-- models `cache.get(key)`: the entry stored under `key`, if any. -/
def mapGet : Cache → String → Option CacheItem
  | [], _ => none
  | p :: rest, k => if p.1 == k then some p.2 else mapGet rest k

/-- models `cache.set(key, item)`: replaces the entry in place when the key
is present, otherwise appends a new entry (JS `Map.set` semantics). -/
def mapSet : Cache → String → CacheItem → Cache
  | [], k, it => [(k, it)]
  | p :: rest, k, it => if p.1 == k then (k, it) :: rest else p :: mapSet rest k it

/-- models `getCachedData(key)` (part_000 lines 31-37): returns the stored
payload when an entry exists and `now - item.timestamp < CACHE_TTL`,
otherwise returns `null` (here `none`).  The cache table is not modified. -/
def getCachedData (c : Cache) (now : Int) (key : String) : Option String :=
  match mapGet c key with
  | some item => if now - item.timestamp < CACHE_TTL then some item.data else none
  | none => none

/-- models `setCachedData(key, data)` (part_000 lines 39-44): stores the
payload under `key` with the current timestamp; no expiry check on write. -/
def setCachedData (c : Cache) (now : Int) (key : String) (data : String) : Cache :=
  mapSet c key ⟨data, now⟩

/-- models `clearExpiredCache()` (part_000 lines 46-53): deletes every entry
with `now - item.timestamp > CACHE_TTL`; all other entries are kept
unchanged. -/
def clearExpiredCache (c : Cache) (now : Int) : Cache :=
  c.filter (fun p => !(decide (now - p.2.timestamp > CACHE_TTL)))

/-- models the mutable `cacheStats` object (part_000 lines 59-63). -/
structure CacheStats where
  hits : Nat
  misses : Nat
  totalRequests : Nat
deriving Repr, DecidableEq

/-- the combined mutable server state: the cache `Map` and the `cacheStats`
counters. -/
structure ServerState where
  cache : Cache
  stats : CacheStats
deriving Repr, DecidableEq

/-- the `cacheStats.hits++; cacheStats.totalRequests++` update of the
`/api/data` handler's cache-hit branch (part_000 lines 161-162). -/
def bumpHit (st : CacheStats) : CacheStats :=
  { st with hits := st.hits + 1, totalRequests := st.totalRequests + 1 }

/-- the `cacheStats.misses++; cacheStats.totalRequests++` update of the
`/api/data` handler's cache-miss branch (part_000 lines 165-166). -/
def bumpMiss (st : CacheStats) : CacheStats :=
  { st with misses := st.misses + 1, totalRequests := st.totalRequests + 1 }

/-- JS truthiness of the handler's `let data = getCachedData(...)`:
`if (data)` is true exactly when `data` is neither `null` nor the empty
string (the only falsy string). -/
def jsTruthy : Option String → Bool
  | none => false
  | some s => !s.isEmpty

/-- the cache-read-and-count step of the `/api/data` handler (part_000
lines 157-167): look the key up via `getCachedData`; when the result is
truthy count a hit and return it, otherwise count a miss (the handler then
falls back to the file load, modelled in `handleApiData`). -/
def cacheGet (s : ServerState) (now : Int) (key : String) :
    ServerState × Option String :=
  let data := getCachedData s.cache now key
  if jsTruthy data then ({ s with stats := bumpHit s.stats }, data)
  else ({ s with stats := bumpMiss s.stats }, none)

/-- models the whole cache interaction of the `/api/data` handler (part_000
lines 156-191): on a truthy cached value serve it as a hit; otherwise count
a miss, load from the data file (`load = some d` when `readFileSync`
succeeds, `none` when it throws), and on success store the loaded payload
via `setCachedData` and serve it.  On a failed load the handler's catch
block answers 500 with no payload; the miss was already counted. -/
def handleApiData (s : ServerState) (now : Int) (key : String)
    (load : Option String) : ServerState × Option String :=
  match cacheGet s now key with
  | (s1, some d) => (s1, some d)
  | (s1, none) =>
    match load with
    | some d => ({ s1 with cache := setCachedData s1.cache now key d }, some d)
    | none => (s1, none)

/-- models the `/api/cache/clear` handler (part_000 lines 240-257):
`previousSize = cache.size; cache.clear(); cacheStats = {0,0,0}` and the
response reports `clearedEntries: previousSize`. -/
def handleClearCache (s : ServerState) : ServerState × Nat :=
  let previousSize := s.cache.length
  ({ cache := [], stats := { hits := 0, misses := 0, totalRequests := 0 } },
   previousSize)

/-- renders a number of hundredths as a two-decimal string, e.g.
`5000 ↦ "50.00"`: the shape produced by JS `toFixed(2)`. -/
def toFixed2String (hundredths : Nat) : String :=
  let intPart := hundredths / 100
  let frac := hundredths % 100
  toString intPart ++ "." ++ (if frac < 10 then "0" else "") ++ toString frac

/-- models `((hits / totalRequests) * 100).toFixed(2) + '%'` of
`getCacheStats` (part_000 lines 68-69); the floating-point division and
`toFixed(2)` rounding are modelled as exact rational arithmetic rounded
half-up to hundredths of a percent. -/
def formatHitRate (hits total : Nat) : String :=
  toFixed2String ((hits * 10000 * 2 + total) / (2 * total)) ++ "%"

/-- the record answered by `getCacheStats()` (part_000 lines 65-73); the
ambient `process.memoryUsage()` field is outside the cache model and
omitted. -/
structure StatsReport where
  hits : Nat
  misses : Nat
  totalRequests : Nat
  hitRate : String
  cacheSize : Nat
deriving Repr, DecidableEq

/-- models `getCacheStats()` (part_000 lines 65-73): the three counters, the
hit rate (`'0%'` when `totalRequests` is 0, guarding the division), and
`cacheSize = cache.size`. -/
def getCacheStats (c : Cache) (st : CacheStats) : StatsReport :=
  { hits := st.hits
    misses := st.misses
    totalRequests := st.totalRequests
    hitRate :=
      if st.totalRequests > 0 then formatHitRate st.hits st.totalRequests
      else "0%"
    cacheSize := c.length }

/-- the operations that touch the cache state, for reasoning about
sequences of completed operations: the `/api/data` read (with the outcome
of the fallback file load), a direct `setCachedData`, the periodic
`clearExpiredCache` sweep (part_000 line 56), and the
`/api/cache/clear` reset. -/
inductive Op where
  | get (now : Int) (key : String) (load : Option String)
  | set (now : Int) (key : String) (data : String)
  | sweep (now : Int)
  | clear
deriving Repr, DecidableEq

/-- the state transition of one completed operation. -/
def step (s : ServerState) : Op → ServerState
  | .get now key load => (handleApiData s now key load).1
  | .set now key data => { s with cache := setCachedData s.cache now key data }
  | .sweep now => { s with cache := clearExpiredCache s.cache now }
  | .clear => (handleClearCache s).1

/-- runs a sequence of completed operations from a state. -/
def runOps (s : ServerState) (ops : List Op) : ServerState :=
  ops.foldl step s

/-- the process-start state: empty cache `Map`, zeroed `cacheStats`. -/
def initialState : ServerState :=
  { cache := [], stats := { hits := 0, misses := 0, totalRequests := 0 } }

/-- the stats bookkeeping invariant of spec section 3. -/
abbrev statsInv (st : CacheStats) : Prop :=
  st.hits + st.misses = st.totalRequests

/-! helper lemmas about the association-list model of the JS `Map`. -/

theorem mapGet_mapSet_self (c : Cache) (k : String) (it : CacheItem) :
    mapGet (mapSet c k it) k = some it := by
  induction c with
  | nil => simp [mapSet, mapGet]
  | cons p rest ih =>
    by_cases h : p.1 == k
    · simp [mapSet, mapGet, h]
    · simp [mapSet, mapGet, h, ih]

theorem mapGet_mapSet_ne (c : Cache) (k k2 : String) (it : CacheItem)
    (hne : k2 ≠ k) : mapGet (mapSet c k it) k2 = mapGet c k2 := by
  have hk : (k == k2) = false := beq_eq_false_iff_ne.mpr (Ne.symm hne)
  induction c with
  | nil => simp [mapSet, mapGet, hk]
  | cons p rest ih =>
    by_cases h : p.1 == k
    · have hp : p.1 = k := eq_of_beq h
      simp [mapSet, mapGet, h, hk, hp]
    · simp [mapSet, mapGet, h, ih]

theorem mapGet_filter_keep (q : String × CacheItem → Bool) (c : Cache)
    (k : String) (it : CacheItem) (hget : mapGet c k = some it)
    (hq : q (k, it) = true) : mapGet (c.filter q) k = some it := by
  induction c with
  | nil => simp [mapGet] at hget
  | cons p rest ih =>
    by_cases h : p.1 == k
    · have hp1 : p.1 = k := eq_of_beq h
      have hp2 : p.2 = it := by
        have := hget
        simpa [mapGet, h] using this
      have hpe : p = (k, it) := by
        cases p
        simp_all
      rw [List.filter_cons]
      simp [hpe, hq, mapGet]
    · have hget2 : mapGet rest k = some it := by
        have := hget
        simpa [mapGet, h] using this
      rw [List.filter_cons]
      by_cases hqp : q p = true
      · simp [hqp, mapGet, h, ih hget2]
      · simp [hqp, ih hget2]

/-! helper lemmas characterising the handler's read-and-count step. -/

theorem cacheGet_hit_of_valid (s : ServerState) (now : Int) (k : String)
    (it : CacheItem) (hget : mapGet s.cache k = some it)
    (hlt : now - it.timestamp < CACHE_TTL) (hne : it.data ≠ "") :
    cacheGet s now k = ({ s with stats := bumpHit s.stats }, some it.data) := by
  have hd : getCachedData s.cache now k = some it.data := by
    simp [getCachedData, hget, hlt]
  have hemp : it.data.isEmpty = false := by
    rw [← Bool.not_eq_true, String.isEmpty_iff]
    exact hne
  have ht : jsTruthy (getCachedData s.cache now k) = true := by
    simp [hd, jsTruthy, hemp]
  simp [cacheGet, hd, jsTruthy, hemp]

theorem jsTruthy_getCachedData_eq_false (c : Cache) (now : Int) (k : String)
    (h : mapGet c k = none
      ∨ ∃ it : CacheItem, mapGet c k = some it
          ∧ (CACHE_TTL ≤ now - it.timestamp ∨ it.data = "")) :
    jsTruthy (getCachedData c now k) = false := by
  rcases h with h | ⟨it, hget, hcase⟩
  · simp [getCachedData, h, jsTruthy]
  · rcases hcase with hexp | hemp
    · simp [getCachedData, hget, not_lt.mpr hexp, jsTruthy]
    · have he : ("" : String).isEmpty = true := by decide
      by_cases hlt : now - it.timestamp < CACHE_TTL <;>
        simp [getCachedData, hget, hlt, jsTruthy, hemp, he]

theorem cacheGet_miss (s : ServerState) (now : Int) (k : String)
    (h : jsTruthy (getCachedData s.cache now k) = false) :
    cacheGet s now k = ({ s with stats := bumpMiss s.stats }, none) := by
  simp [cacheGet, h]

theorem cacheGet_some_sound (s : ServerState) (now : Int) (k : String)
    (v : String) (hv : (cacheGet s now k).2 = some v) :
    ∃ it : CacheItem, mapGet s.cache k = some it
      ∧ now - it.timestamp < CACHE_TTL ∧ v = it.data := by
  by_cases ht : jsTruthy (getCachedData s.cache now k)
  · have hdata : getCachedData s.cache now k = some v := by
      simpa [cacheGet, ht] using hv
    cases hget : mapGet s.cache k with
    | none => simp [getCachedData, hget] at hdata
    | some it =>
      by_cases hlt : now - it.timestamp < CACHE_TTL
      · refine ⟨it, rfl, hlt, ?_⟩
        have := hdata
        simp [getCachedData, hget, hlt] at this
        exact this.symm
      · simp [getCachedData, hget, hlt] at hdata
  · have ht2 : jsTruthy (getCachedData s.cache now k) = false := by
      simpa using ht
    simp [cacheGet, ht2] at hv

theorem cacheGet_cache_eq (s : ServerState) (now : Int) (k : String) :
    (cacheGet s now k).1.cache = s.cache := by
  by_cases h : jsTruthy (getCachedData s.cache now k) <;> simp [cacheGet, h]

theorem cacheGet_stats_cases (s : ServerState) (now : Int) (k : String) :
    (cacheGet s now k).1.stats = bumpHit s.stats
    ∨ (cacheGet s now k).1.stats = bumpMiss s.stats := by
  by_cases h : jsTruthy (getCachedData s.cache now k) <;> simp [cacheGet, h]

theorem handleApiData_stats (s : ServerState) (now : Int) (key : String)
    (load : Option String) :
    (handleApiData s now key load).1.stats = (cacheGet s now key).1.stats := by
  unfold handleApiData
  cases hc : cacheGet s now key with
  | mk s1 r => cases r <;> cases load <;> simp

/-! the stats bookkeeping invariant is preserved by every operation. -/

theorem statsInv_step (s : ServerState) (op : Op) (h : statsInv s.stats) :
    statsInv (step s op).stats := by
  cases op with
  | get now key load =>
    have hst := handleApiData_stats s now key load
    rcases cacheGet_stats_cases s now key with h1 | h1 <;>
      · simp only [step, hst, h1, bumpHit, bumpMiss, statsInv] at *
        omega
  | set now key data => simpa [step] using h
  | sweep now => simpa [step] using h
  | clear => simp [step, handleClearCache]

theorem statsInv_runOps (s : ServerState) (ops : List Op)
    (h : statsInv s.stats) : statsInv (runOps s ops).stats := by
  induction ops generalizing s with
  | nil => simpa [runOps] using h
  | cons op rest ih =>
    have : runOps s (op :: rest) = runOps (step s op) rest := by
      simp [runOps]
    rw [this]
    exact ih _ (statsInv_step s op h)

/-- C1: for every sequence of completed get and set operations (starting
from the initial state or any state reached after clear), the stats
counters satisfy hits + misses = totalRequests; every get increments
exactly one of hits/misses together with totalRequests, and clear resets
all three to zero together. -/
theorem C1_stats_invariant :
    (∀ (s : ServerState) (ops : List Op),
        statsInv s.stats → statsInv (runOps s ops).stats)
    ∧ (∀ ops : List Op, statsInv (runOps initialState ops).stats)
    ∧ (∀ (s : ServerState) (ops : List Op),
        statsInv (runOps (step s Op.clear) ops).stats)
    ∧ (∀ (s : ServerState) (now : Int) (key : String) (load : Option String),
        (handleApiData s now key load).1.stats.totalRequests
            = s.stats.totalRequests + 1
        ∧ (((handleApiData s now key load).1.stats.hits = s.stats.hits + 1
              ∧ (handleApiData s now key load).1.stats.misses = s.stats.misses)
            ∨ ((handleApiData s now key load).1.stats.hits = s.stats.hits
              ∧ (handleApiData s now key load).1.stats.misses
                  = s.stats.misses + 1)))
    ∧ (∀ s : ServerState, (handleClearCache s).1.stats = ⟨0, 0, 0⟩) := by
  refine ⟨fun s ops h => statsInv_runOps s ops h, ?_, ?_, ?_, fun s => rfl⟩
  · intro ops
    exact statsInv_runOps _ ops (by decide)
  · intro s ops
    refine statsInv_runOps _ ops ?_
    simp [step, handleClearCache, statsInv]
  · intro s now key load
    have hst := handleApiData_stats s now key load
    rcases cacheGet_stats_cases s now key with h1 | h1 <;>
      rw [hst, h1] <;> simp [bumpHit, bumpMiss]

/-- witness for C1 at a concrete state and operation sequence. -/
theorem C1_stats_invariant_witness :
    statsInv (⟨[], ⟨2, 3, 5⟩⟩ : ServerState).stats
    ∧ statsInv (runOps ⟨[], ⟨2, 3, 5⟩⟩
        [Op.get 0 "k" none, Op.set 0 "k" "v", Op.get 1 "k" none,
         Op.sweep 2, Op.clear]).stats :=
  ⟨by decide, C1_stats_invariant.1 ⟨[], ⟨2, 3, 5⟩⟩ _ (by decide)⟩

/-- C3: clear removes all entries, resets hits, misses and totalRequests to
zero in one atomic step (the whole handler is a single transition of the
sequential operation semantics), and returns exactly the number of entries
present immediately before the clear. -/
theorem C3_clear_semantics :
    ∀ s : ServerState,
      (handleClearCache s).1.cache = []
      ∧ (∀ k : String, mapGet (handleClearCache s).1.cache k = none)
      ∧ (handleClearCache s).1.stats = ⟨0, 0, 0⟩
      ∧ (handleClearCache s).2 = (getCacheStats s.cache s.stats).cacheSize
      ∧ step s Op.clear = (handleClearCache s).1
      ∧ getCacheStats (handleClearCache s).1.cache (handleClearCache s).1.stats
          = ⟨0, 0, 0, "0%", 0⟩ := by
  intro s
  exact ⟨rfl, fun k => rfl, rfl, rfl, rfl, rfl⟩

/-- C4: sweep removes exactly the entries whose age exceeds TTL; every
other entry remains with its value and stored timestamp unchanged (the
swept table is a sublist of the original), and sweep leaves the stats
counters untouched. -/
theorem C4_sweep_exact :
    (∀ (c : Cache) (now : Int) (k : String) (it : CacheItem),
        (k, it) ∈ clearExpiredCache c now
          ↔ ((k, it) ∈ c ∧ ¬now - it.timestamp > CACHE_TTL))
    ∧ (∀ (c : Cache) (now : Int), List.Sublist (clearExpiredCache c now) c)
    ∧ (∀ (s : ServerState) (now : Int),
        (step s (Op.sweep now)).stats = s.stats) := by
  refine ⟨?_, ?_, ?_⟩
  · intro c now k it
    simp [clearExpiredCache, List.mem_filter]
  · intro c now
    exact List.filter_sublist c
  · intro s now
    simp [step]

/-- C5: the stats report shows hitRate = hits/totalRequests as a percentage
when totalRequests > 0 and the literal "0%" when totalRequests = 0 (no
division by zero), and its size field counts every entry currently in the
table, including ones past TTL that a sweep would remove. -/
theorem C5_stats_report :
    ∀ (c : Cache) (st : CacheStats),
      (st.totalRequests = 0 → (getCacheStats c st).hitRate = "0%")
      ∧ (0 < st.totalRequests →
          (getCacheStats c st).hitRate = formatHitRate st.hits st.totalRequests)
      ∧ (getCacheStats c st).cacheSize = c.length
      ∧ (∀ now : Int,
          (clearExpiredCache c now).length ≤ (getCacheStats c st).cacheSize) := by
  intro c st
  refine ⟨?_, ?_, rfl, ?_⟩
  · intro h
    simp [getCacheStats, h]
  · intro h
    simp [getCacheStats, h]
  · intro now
    simpa [getCacheStats, clearExpiredCache] using
      List.length_filter_le (fun p => !(decide (now - p.2.timestamp > CACHE_TTL))) c

/-- witness for C5 on a zero-request state and on a two-request state. -/
theorem C5_stats_report_witness :
    ((⟨0, 0, 0⟩ : CacheStats).totalRequests = 0
      ∧ (getCacheStats [] ⟨0, 0, 0⟩).hitRate = "0%")
    ∧ (0 < (⟨1, 1, 2⟩ : CacheStats).totalRequests
      ∧ (getCacheStats [] ⟨1, 1, 2⟩).hitRate = formatHitRate 1 2) :=
  ⟨⟨rfl, (C5_stats_report [] ⟨0, 0, 0⟩).1 rfl⟩,
   ⟨by decide, (C5_stats_report [] ⟨1, 1, 2⟩).2.1 (by decide)⟩⟩

/-- C2 counterexample: an entry for "k" exists and is unexpired (age 0 <
TTL), yet the handler's read counts a miss and serves no cached value,
because the stored payload is the empty string and the handler's
`if (data)` truthiness test sends it down the miss path. -/
theorem C2_counterexample :
    mapGet [("k", (⟨"", 0⟩ : CacheItem))] "k" = some ⟨"", 0⟩
    ∧ (0 : Int) - 0 < CACHE_TTL
    ∧ (cacheGet ⟨[("k", ⟨"", 0⟩)], ⟨0, 0, 0⟩⟩ 0 "k").2 = none
    ∧ (cacheGet ⟨[("k", ⟨"", 0⟩)], ⟨0, 0, 0⟩⟩ 0 "k").1.stats = ⟨0, 1, 1⟩ := by
  decide

/-- C2 (amended): get(k) returns the stored value and counts as a hit when
an entry for k exists, is unexpired (now - storedAt < TTL) and its value is
non-empty; otherwise (absent key, age ≥ TTL even before a sweep, or an
empty stored value) get returns absent and counts as a miss, and a stale
value is never returned. -/
theorem C2_get_read_semantics :
    ∀ (s : ServerState) (now : Int) (k : String),
      (∀ it : CacheItem,
          mapGet s.cache k = some it → now - it.timestamp < CACHE_TTL →
          it.data ≠ "" →
          cacheGet s now k = ({ s with stats := bumpHit s.stats }, some it.data))
      ∧ ((mapGet s.cache k = none
            ∨ ∃ it : CacheItem, mapGet s.cache k = some it
                ∧ (CACHE_TTL ≤ now - it.timestamp ∨ it.data = "")) →
          cacheGet s now k = ({ s with stats := bumpMiss s.stats }, none))
      ∧ (∀ v : String, (cacheGet s now k).2 = some v →
          ∃ it : CacheItem, mapGet s.cache k = some it
            ∧ now - it.timestamp < CACHE_TTL ∧ v = it.data) := by
  intro s now k
  refine ⟨?_, ?_, ?_⟩
  · intro it hget hlt hne
    exact cacheGet_hit_of_valid s now k it hget hlt hne
  · intro h
    exact cacheGet_miss s now k (jsTruthy_getCachedData_eq_false s.cache now k h)
  · intro v hv
    exact cacheGet_some_sound s now k v hv

/-- witness for C2 (amended): a fresh nonempty entry is served as a hit. -/
theorem C2_get_read_semantics_witness :
    mapGet (⟨[("k", ⟨"a", 0⟩)], ⟨0, 0, 0⟩⟩ : ServerState).cache "k"
        = some ⟨"a", 0⟩
    ∧ (5 : Int) - 0 < CACHE_TTL
    ∧ ("a" : String) ≠ ""
    ∧ cacheGet ⟨[("k", ⟨"a", 0⟩)], ⟨0, 0, 0⟩⟩ 5 "k"
        = (⟨[("k", ⟨"a", 0⟩)], ⟨1, 0, 1⟩⟩, some "a") :=
  ⟨by decide, by decide, by decide,
   (C2_get_read_semantics ⟨[("k", ⟨"a", 0⟩)], ⟨0, 0, 0⟩⟩ 5 "k").1 ⟨"a", 0⟩
     (by decide) (by decide) (by decide)⟩

/-- C6 counterexample: set("k", "") stores the entry with the current
timestamp, but the immediately following get within the TTL window counts
a miss and returns absent instead of the stored empty value, because of
the handler's truthiness test. -/
theorem C6_counterexample :
    mapGet (setCachedData [] 0 "k" "") "k" = some ⟨"", 0⟩
    ∧ (0 : Int) - 0 < CACHE_TTL
    ∧ (cacheGet ⟨setCachedData [] 0 "k" "", ⟨0, 0, 0⟩⟩ 0 "k").2 = none
    ∧ (cacheGet ⟨setCachedData [] 0 "k" "", ⟨0, 0, 0⟩⟩ 0 "k").1.stats
        = ⟨0, 1, 1⟩ := by
  decide

/-- C6 (amended): set(k, v) inserts or wholesale-replaces the entry for k
with storedAt equal to the current time and no expiry check on write,
leaving every other key untouched; a get(k) that follows within the TTL
window returns v and counts as a hit provided v is non-empty. -/
theorem C6_set_then_get :
    ∀ (c : Cache) (st : CacheStats) (now nowR : Int) (k v : String),
      mapGet (setCachedData c now k v) k = some ⟨v, now⟩
      ∧ (∀ k2 : String, k2 ≠ k →
          mapGet (setCachedData c now k v) k2 = mapGet c k2)
      ∧ (nowR - now < CACHE_TTL → v ≠ "" →
          cacheGet ⟨setCachedData c now k v, st⟩ nowR k
            = (⟨setCachedData c now k v, bumpHit st⟩, some v)) := by
  intro c st now nowR k v
  refine ⟨mapGet_mapSet_self c k ⟨v, now⟩,
    fun k2 h => mapGet_mapSet_ne c k k2 ⟨v, now⟩ h, ?_⟩
  intro hlt hne
  exact cacheGet_hit_of_valid ⟨setCachedData c now k v, st⟩ nowR k ⟨v, now⟩
    (mapGet_mapSet_self c k ⟨v, now⟩) hlt hne

/-- witness for C6 (amended): set then get of a nonempty value hits. -/
theorem C6_set_then_get_witness :
    mapGet (setCachedData [] 0 "k" "a") "k" = some ⟨"a", 0⟩
    ∧ (1 : Int) - 0 < CACHE_TTL
    ∧ ("a" : String) ≠ ""
    ∧ cacheGet ⟨setCachedData [] 0 "k" "a", ⟨0, 0, 0⟩⟩ 1 "k"
        = (⟨setCachedData [] 0 "k" "a", bumpHit ⟨0, 0, 0⟩⟩, some "a") :=
  ⟨(C6_set_then_get [] ⟨0, 0, 0⟩ 0 1 "k" "a").1, by decide, by decide,
   (C6_set_then_get [] ⟨0, 0, 0⟩ 0 1 "k" "a").2.2 (by decide) (by decide)⟩

/-- C7: from the empty cache with zeroed stats, the trace
set("k1","a"); set("k2","b"); get("k1"); get("k3") within the TTL window
yields a hit returning "a", then a miss returning absent, after which the
stats report is hits 1, misses 1, totalRequests 2, hitRate "50.00%",
size 2. -/
theorem C7_example_trace :
    setCachedData (setCachedData initialState.cache 0 "k1" "a") 0 "k2" "b"
        = [("k1", ⟨"a", 0⟩), ("k2", ⟨"b", 0⟩)]
    ∧ cacheGet ⟨[("k1", ⟨"a", 0⟩), ("k2", ⟨"b", 0⟩)], initialState.stats⟩ 0 "k1"
        = (⟨[("k1", ⟨"a", 0⟩), ("k2", ⟨"b", 0⟩)], ⟨1, 0, 1⟩⟩, some "a")
    ∧ cacheGet ⟨[("k1", ⟨"a", 0⟩), ("k2", ⟨"b", 0⟩)], ⟨1, 0, 1⟩⟩ 0 "k3"
        = (⟨[("k1", ⟨"a", 0⟩), ("k2", ⟨"b", 0⟩)], ⟨1, 1, 2⟩⟩, none)
    ∧ getCacheStats [("k1", ⟨"a", 0⟩), ("k2", ⟨"b", 0⟩)] ⟨1, 1, 2⟩
        = ⟨1, 1, 2, "50.00%", 2⟩ := by
  decide

/-- C8: when the fallback file load fails on a cache miss (`load = none`),
the handler stores nothing — the cache table is exactly what it was — the
response carries no payload, and at every later time the read for that key
is still a miss, until some later successful set changes the table. -/
theorem C8_failed_load :
    ∀ (s : ServerState) (now : Int) (k : String),
      (cacheGet s now k).2 = none →
        (handleApiData s now k none).1.cache = s.cache
        ∧ (handleApiData s now k none).2 = none
        ∧ (∀ nw : Int, now ≤ nw →
            (cacheGet (handleApiData s now k none).1 nw k).2 = none) := by
  intro s now k hmiss
  have ht : jsTruthy (getCachedData s.cache now k) = false := by
    by_cases h : jsTruthy (getCachedData s.cache now k)
    · exfalso
      cases hd : getCachedData s.cache now k with
      | none => simp [jsTruthy, hd] at h
      | some d =>
        have hde : d.isEmpty = false := by
          have hh := h
          simp [jsTruthy, hd] at hh
          exact hh
        simp [cacheGet, hd, jsTruthy, hde] at hmiss
    · simpa using h
  have hca : cacheGet s now k = ({ s with stats := bumpMiss s.stats }, none) :=
    cacheGet_miss s now k ht
  have hha : handleApiData s now k none
      = ({ s with stats := bumpMiss s.stats }, none) := by
    simp [handleApiData, hca]
  refine ⟨by simp [hha], by simp [hha], ?_⟩
  intro nw hnw
  rw [hha]
  have ht2 : jsTruthy (getCachedData s.cache nw k) = false := by
    cases hget : mapGet s.cache k with
    | none => simp [jsTruthy, getCachedData, hget]
    | some it =>
      by_cases hlt : now - it.timestamp < CACHE_TTL
      · have hemp : it.data.isEmpty = true := by
          have := ht
          simp [getCachedData, hget, hlt, jsTruthy] at this
          exact this
        by_cases hlt2 : nw - it.timestamp < CACHE_TTL <;>
          simp [getCachedData, hget, hlt2, jsTruthy, hemp]
      · have h1 : CACHE_TTL ≤ now - it.timestamp := not_lt.mp hlt
        have h2 : now - it.timestamp ≤ nw - it.timestamp :=
          sub_le_sub_right hnw _
        have hlt2 : ¬nw - it.timestamp < CACHE_TTL :=
          not_lt.mpr (le_trans h1 h2)
        simp [getCachedData, hget, hlt2, jsTruthy]
  simp [cacheGet, ht2]

/-- witness for C8: a miss on the empty cache with a failed load leaves the
cache empty and every later read a miss. -/
theorem C8_failed_load_witness :
    (cacheGet ⟨[], ⟨0, 0, 0⟩⟩ 0 "k").2 = none
    ∧ (handleApiData ⟨[], ⟨0, 0, 0⟩⟩ 0 "k" none).1.cache = ([] : Cache)
    ∧ (0 : Int) ≤ 7
    ∧ (cacheGet (handleApiData ⟨[], ⟨0, 0, 0⟩⟩ 0 "k" none).1 7 "k").2 = none :=
  ⟨by decide,
   (C8_failed_load ⟨[], ⟨0, 0, 0⟩⟩ 0 "k" (by decide)).1,
   by decide,
   (C8_failed_load ⟨[], ⟨0, 0, 0⟩⟩ 0 "k" (by decide)).2.2 7 (by decide)⟩

/-- C9: at age exactly TTL an entry is already invisible to reads —
getCachedData returns none and the handler's read counts a miss — yet the
sweep run at that same instant keeps the entry in the table, because the
read uses age < TTL while the sweep deletes only on age > TTL. -/
theorem C9_ttl_boundary :
    ∀ (c : Cache) (st : CacheStats) (now : Int) (k : String) (it : CacheItem),
      mapGet c k = some it → now - it.timestamp = CACHE_TTL →
        getCachedData c now k = none
        ∧ (cacheGet ⟨c, st⟩ now k).2 = none
        ∧ (cacheGet ⟨c, st⟩ now k).1.stats = bumpMiss st
        ∧ mapGet (clearExpiredCache c now) k = some it := by
  intro c st now k it hget heq
  have hnl : ¬now - it.timestamp < CACHE_TTL := by
    rw [heq]
    exact lt_irrefl _
  have hgd : getCachedData c now k = none := by
    simp [getCachedData, hget, hnl]
  have hq : (fun p : String × CacheItem =>
      !(decide (now - p.2.timestamp > CACHE_TTL))) (k, it) = true := by
    simp [heq]
  refine ⟨hgd, ?_, ?_, ?_⟩
  · simp [cacheGet, hgd, jsTruthy]
  · simp [cacheGet, hgd, jsTruthy]
  · exact mapGet_filter_keep _ c k it hget hq

/-- witness for C9 at the concrete boundary instant now = TTL. -/
theorem C9_ttl_boundary_witness :
    mapGet [("k", (⟨"a", 0⟩ : CacheItem))] "k" = some ⟨"a", 0⟩
    ∧ CACHE_TTL - (0 : Int) = CACHE_TTL
    ∧ getCachedData [("k", ⟨"a", 0⟩)] CACHE_TTL "k" = none
    ∧ mapGet (clearExpiredCache [("k", ⟨"a", 0⟩)] CACHE_TTL) "k"
        = some ⟨"a", 0⟩ :=
  ⟨by decide, by decide,
   (C9_ttl_boundary [("k", ⟨"a", 0⟩)] ⟨0, 0, 0⟩ CACHE_TTL "k" ⟨"a", 0⟩
     (by decide) (by decide)).1,
   (C9_ttl_boundary [("k", ⟨"a", 0⟩)] ⟨0, 0, 0⟩ CACHE_TTL "k" ⟨"a", 0⟩
     (by decide) (by decide)).2.2.2⟩

/-- C10: the handler's read step never modifies the cache table — looking
up an expired entry does not evict it — so every key maps to the same entry
after a get as before it, and the size reported by the stats endpoint is
unchanged. -/
theorem C10_get_frame :
    ∀ (s : ServerState) (now : Int) (k : String),
      (cacheGet s now k).1.cache = s.cache
      ∧ (∀ k2 : String, mapGet (cacheGet s now k).1.cache k2 = mapGet s.cache k2)
      ∧ (getCacheStats (cacheGet s now k).1.cache
            (cacheGet s now k).1.stats).cacheSize
          = (getCacheStats s.cache s.stats).cacheSize := by
  intro s now k
  have hc := cacheGet_cache_eq s now k
  exact ⟨hc, fun k2 => by rw [hc], by simp [getCacheStats, hc]⟩

end WbjeeCache
